import Mathlib

/-!
Verification of the serial weight reader core (src/SerialWeightReader.js).

The JavaScript source is shallowly embedded: buffers are lists of
characters, the regular-expression engine implements the subset of
JavaScript regular expressions that the configured extraction patterns
use (literals, escapes \d \r \n, character classes of plain characters,
one level of capturing groups, and the greedy + quantifier), and the
effectful open/collect/close lifecycle is modelled as a pure function
from an environment (open outcome, arriving data events, close outcome)
to a session result together with a trace of port actions.
-/

namespace SerialWeightReader

/-- Character buffer, the embedding of the contents of a JavaScript string. -/
abbrev Str := List Char

/-- Start-of-frame marker used by the frame protocol (JS '\x02'). -/
def STX : Char := '\x02'

/-- End-of-frame marker used by the frame protocol (JS '\x03'). -/
def ETX : Char := '\x03'

/-- Index of the first occurrence of a character, as JS `indexOf`
    (`none` embeds the JS result -1). -/
def jsIndexOf : Str → Char → Option Nat
  | [], _ => none
  | c :: cs, t =>
    if c = t then some 0
    else (jsIndexOf cs t).map (fun n => n + 1)

/-- Index of the last occurrence of a character, as JS `lastIndexOf`. -/
def jsLastIndexOf (s : Str) (t : Char) : Option Nat :=
  match jsIndexOf s.reverse t with
  | some k => some (s.length - 1 - k)
  | none => none

/-- JS `String.prototype.split` with a single-character separator. -/
def jsSplitAux (t : Char) : Str → Str → List Str
  | acc, [] => [acc.reverse]
  | acc, c :: cs =>
    if c = t then acc.reverse :: jsSplitAux t [] cs
    else jsSplitAux t (c :: acc) cs

/-- Splits a buffer on every occurrence of the separator character. -/
def jsSplit (s : Str) (t : Char) : List Str := jsSplitAux t [] s

/-- Whitespace recognized by JS `trim` and by `parseInt` (ASCII part). -/
def isJsSpace (c : Char) : Bool :=
  (c = ' ') || (c = '\t') || (c = '\n') || (c = '\r') || (c = '\x0b') || (c = '\x0c')

/-- JS `String.prototype.trim`. -/
def jsTrim (s : Str) : Str :=
  ((s.dropWhile isJsSpace).reverse.dropWhile isJsSpace).reverse

/-- Value of a leading run of decimal digits; `none` when there is none. -/
def jsDigitsVal (s : Str) : Option Nat :=
  let ds := s.takeWhile Char.isDigit
  if ds = [] then none
  else some (ds.foldl (fun a c => a * 10 + (c.toNat - '0'.toNat)) 0)

/-- JS `parseInt(s, 10)`: skip leading whitespace, optional sign, then a
    maximal run of decimal digits; `none` embeds the JS result NaN. -/
def jsParseInt (s : Str) : Option Int :=
  match s.dropWhile isJsSpace with
  | '-' :: rest => (jsDigitsVal rest).map (fun n => -(n : Int))
  | '+' :: rest => (jsDigitsVal rest).map (fun n => (n : Int))
  | s1 => (jsDigitsVal s1).map (fun n => (n : Int))

/-- Abstract syntax of the supported regular-expression subset. -/
inductive RE where
  /-- a literal character -/
  | lit (c : Char)
  /-- the escape \d -/
  | digit
  /-- a character class of plain characters -/
  | cls (cs : Str)
  /-- a capturing group -/
  | grp (inner : List RE)
  /-- the greedy one-or-more quantifier -/
  | plus (e : RE)

mutual

/-- Syntactic size of a pattern element, used to bound matcher fuel. -/
def reSize : RE → Nat
  | RE.lit _ => 1
  | RE.digit => 1
  | RE.cls _ => 1
  | RE.grp inner => 1 + reSizeList inner
  | RE.plus e => 1 + reSize e

/-- Syntactic size of a pattern, used to bound matcher fuel. -/
def reSizeList : List RE → Nat
  | [] => 0
  | r :: rs => reSize r + reSizeList rs

end

/-- Characters whose contents a class may not contain in this subset. -/
def classForbidden : Str := ['^', '-', '\\', '[']

/-- Reads the body of a character class up to the closing bracket. -/
def parseClass : Str → Option (Str × Str)
  | [] => none
  | ']' :: rest => some ([], rest)
  | c :: rest =>
    if classForbidden.contains c then none
    else
      match parseClass rest with
      | some (cs, r) => some (c :: cs, r)
      | none => none

/-- Metacharacters outside the supported subset; a pattern using them is
    not given a meaning here (only patterns the theorems evaluate must
    compile, and those use none of these). -/
def unsupportedMeta : Str := ['*', '?', '|', '\x7b', '\x7d', '.', '^', '$', ']']

/-- Recursive-descent parsing of a pattern: a sequence of elements, up to
    a closing parenthesis when inside a group.  Mirrors the syntax the JS
    `new RegExp` call accepts on the supported subset; in particular an
    unbalanced parenthesis fails, embedding the SyntaxError the JS
    constructor throws for a malformed pattern. -/
def parseSeq : Nat → Bool → List RE → Str → Option (List RE × Str)
  | 0, _, _, _ => none
  | _ + 1, inGroup, acc, [] =>
    if inGroup then none else some (acc.reverse, [])
  | fuel + 1, inGroup, acc, c :: rest =>
    if c = ')' then
      if inGroup then some (acc.reverse, rest) else none
    else if c = '(' then
      match parseSeq fuel true [] rest with
      | some (items, rest2) => parseSeq fuel inGroup (RE.grp items :: acc) rest2
      | none => none
    else if c = '[' then
      match parseClass rest with
      | some (cs, rest2) => parseSeq fuel inGroup (RE.cls cs :: acc) rest2
      | none => none
    else if c = '\\' then
      match rest with
      | [] => none
      | e :: rest2 =>
        let elem :=
          if e = 'd' then RE.digit
          else if e = 'r' then RE.lit '\r'
          else if e = 'n' then RE.lit '\n'
          else if e = 't' then RE.lit '\t'
          else RE.lit e
        parseSeq fuel inGroup (elem :: acc) rest2
    else if c = '+' then
      match acc with
      | prev :: acc2 => parseSeq fuel inGroup (RE.plus prev :: acc2) rest
      | [] => none
    else if unsupportedMeta.contains c then none
    else parseSeq fuel inGroup (RE.lit c :: acc) rest

/-- Compiles a pattern string; `none` embeds the exception thrown by the
    JS `new RegExp` constructor on a malformed pattern. -/
def compileRegex (f : Str) : Option (List RE) :=
  match parseSeq (2 * f.length + 4) false [] f with
  | some (items, _) => some items
  | none => none

/-- Joins the capture of two sequential parts; the leftmost capturing
    group wins, as JS `match[1]` is the first group (the compiled
    patterns here contain at most one group). -/
def capJoin : Option Str → Option Str → Option Str
  | some a, _ => some a
  | none, b => b

/-- Backtracking matcher: all ways a sequence of elements can match a
    prefix of the input, as pairs of (remaining input, group capture),
    in JS priority order (greedy quantifiers, leftmost alternative
    first).  Fuel bounds the recursion depth. -/
def reSeq : Nat → List RE → Str → List (Str × Option Str)
  | 0, _, _ => []
  | _ + 1, [], s => [(s, none)]
  | fuel + 1, r :: rs, s =>
    let heads : List (Str × Option Str) :=
      match r with
      | RE.lit c =>
        match s with
        | [] => []
        | x :: xs => if x = c then [(xs, none)] else []
      | RE.digit =>
        match s with
        | [] => []
        | x :: xs => if x.isDigit then [(xs, none)] else []
      | RE.cls cs =>
        match s with
        | [] => []
        | x :: xs => if cs.contains x then [(xs, none)] else []
      | RE.grp inner =>
        (reSeq fuel inner s).map
          (fun p => (p.1, some (s.take (s.length - p.1.length))))
      | RE.plus e =>
        (reSeq fuel [e] s).foldr
          (fun p acc =>
            (if p.1.length < s.length then
              ((reSeq fuel [RE.plus e] p.1).map
                (fun q => (q.1, capJoin p.2 q.2))) ++ [p]
            else [p]) ++ acc) []
    heads.foldr
      (fun p acc =>
        ((reSeq fuel rs p.1).map (fun q => (q.1, capJoin p.2 q.2))) ++ acc)
      []

/-- Fuel that dominates the recursion depth of the matcher for a pattern and
    an input. -/
def reFuel (rs : List RE) (s : Str) : Nat :=
  (s.length + 2) * (reSizeList rs + 2) + 8

/-- First match of the pattern at or after the current position, scanning
    left to right: the embedding of `regex.exec` on a freshly constructed
    regex (lastIndex 0; the m and s flags only affect constructs outside
    the supported subset).  Returns the matched text and the capture of
    the group, when one participated. -/
def reExecAux : List RE → Str → Option (Str × Option Str)
  | rs, s =>
    match (reSeq (reFuel rs s) rs s).head? with
    | some p => some (s.take (s.length - p.1.length), p.2)
    | none =>
      match s with
      | [] => none
      | _ :: xs => reExecAux rs xs

/-- The embedding of `regex.exec(data)` for a compiled pattern. -/
def reExec (rs : List RE) (s : Str) : Option (Str × Option Str) := reExecAux rs s

/-- The JS expression `match[1] || match[0]`: the capture of the group
    when it participated and is non-empty, otherwise the whole match
    (`undefined` and the empty string are both falsy). -/
def jsCapOr (cap : Option Str) (whole : Str) : Str :=
  match cap with
  | some c => if c = [] then whole else c
  | none => whole

/-- The method `applyRegexFilter(data)`: compiles the configured filter,
    runs it on the candidate text, takes `match[1] || match[0]`, parses
    it with `parseInt(_, 10)`, and returns the weight unless it is NaN.
    An empty filter is falsy and yields null at once; an exception from
    the `RegExp` constructor is caught and also yields null. -/
def applyRegexFilter (filter : String) (data : Str) : Option Int :=
  if filter = "" then none
  else
    match compileRegex filter.data with
    | none => none
    | some rs =>
      match reExec rs data with
      | none => none
      | some (whole, cap) =>
        match jsParseInt (jsCapOr cap whole) with
        | some w => some w
        | none => none

/-- The `if (this.dataBuffer.length > 1000)` tail of
    `processFrameProtocol`, reached on every path that did not return a
    weight: an overlong buffer is truncated to its most recent STX, or
    cleared when it has none. -/
def frameOverflowCheck (buffer : Str) : Option Int × Str :=
  if 1000 < buffer.length then
    match jsLastIndexOf buffer STX with
    | some recentStx => (none, buffer.drop recentStx)
    | none => (none, [])
  else (none, buffer)

/-- The method `processFrameProtocol(data)`: the buffer (with the chunk
    already appended) is scanned for the last STX; from there for an
    ETX; a complete frame is passed to `applyRegexFilter`, and on a
    weight the buffer is trimmed past the consumed ETX.  Every path that
    does not return a weight falls through to the buffer-size check.
    Returns the extracted weight (or none) together with the updated
    buffer. -/
def processFrameProtocol (filter : String) (buffer : Str) : Option Int × Str :=
  match jsLastIndexOf buffer STX with
  | some lastStxIndex =>
    match jsIndexOf (buffer.drop lastStxIndex) ETX with
    | some etxIndex =>
      match applyRegexFilter filter ((buffer.drop lastStxIndex).take (etxIndex + 1)) with
      | some w => (some w, buffer.drop (lastStxIndex + etxIndex + 1))
      | none => frameOverflowCheck buffer
    | none => frameOverflowCheck buffer
  | none => frameOverflowCheck buffer

/-- One iteration of the line loop: a line is evaluated only when its
    trimmed text is non-empty (truthy), with the terminator re-appended. -/
def lineReading (filter : String) (line : Str) : Option Int :=
  if jsTrim line = [] then none
  else applyRegexFilter filter (line ++ ['\r'])

/-- The `for (const line of lines)` loop body of `processLineProtocol`:
    the first line yielding a weight wins. -/
def scanLines (filter : String) : List Str → Option Int
  | [] => none
  | line :: rest =>
    match lineReading filter line with
    | some w => some w
    | none => scanLines filter rest

/-- The method `processLineProtocol(data)`: only when the arriving chunk
    contains a carriage return is the entire accumulated buffer split on
    it and each line evaluated in order; the buffer is never trimmed. -/
def processLineProtocol (filter : String) (buffer : Str) (data : Str) : Option Int :=
  if data.contains '\r' then scanLines filter (jsSplit buffer '\r')
  else none

/-- The configuration object built by `loadConfiguration`. -/
structure Config where
  port : String
  baudRate : Int
  dataBits : Int
  parity : String
  stopBits : Int
  rtscts : Bool
  xon : Bool
  xoff : Bool
  xany : Bool
  dtr : Bool
  rts : Bool
  hupcl : Bool
  openDelay : Int
  closeDelay : Int
  protocolType : String
  regexFilter : String
  readTimeout : Int
  logLevel : String
  deriving DecidableEq

/-- The JS idiom `properties.get(key) || dflt` for string-valued settings:
    a missing key (null) and an empty string are both falsy. -/
def jsOrStr (v : Option String) (dflt : String) : String :=
  match v with
  | some s => if s = "" then dflt else s
  | none => dflt

/-- The JS idiom `parseInt(properties.get(key)) || dflt` for numeric
    settings: NaN and 0 are both falsy and fall back to the default, so
    a configured 0 is replaced by the default, while a configured
    negative value is kept. -/
def jsParseIntOr (v : Option String) (dflt : Int) : Int :=
  match v with
  | some s =>
    match jsParseInt s.data with
    | some n => if n = 0 then dflt else n
    | none => dflt
  | none => dflt

/-- The JS strict comparison of a property value with the text true, as
    the boolean settings are read. -/
def jsIsTrue (v : Option String) : Bool := v = some "true"

/-- The method `loadConfiguration()`, over the parsed property map (the
    properties file itself is an external collaborator; a missing file
    throws before this point and no configuration is produced).  No field
    is validated here; in particular the extraction pattern is stored
    without being compiled or checked. -/
def loadConfiguration (props : String → Option String) : Config :=
  { port := jsOrStr (props "serial.port") "COM3"
    baudRate := jsParseIntOr (props "serial.baudRate") 9600
    dataBits := jsParseIntOr (props "serial.dataBits") 8
    parity := jsOrStr (props "serial.parity") "none"
    stopBits := jsParseIntOr (props "serial.stopBits") 1
    rtscts := jsIsTrue (props "serial.rtscts")
    xon := jsIsTrue (props "serial.xon")
    xoff := jsIsTrue (props "serial.xoff")
    xany := jsIsTrue (props "serial.xany")
    dtr := jsIsTrue (props "serial.dtr")
    rts := jsIsTrue (props "serial.rts")
    hupcl := jsIsTrue (props "serial.hupcl")
    openDelay := jsParseIntOr (props "serial.openDelay") 50
    closeDelay := jsParseIntOr (props "serial.closeDelay") 50
    protocolType := jsOrStr (props "protocol.type") "frame"
    regexFilter := jsOrStr (props "regex.filter") "(\\d+)"
    readTimeout := jsParseIntOr (props "read.timeout") 3000
    logLevel := jsOrStr (props "log.level") "info" }

/-- An event observed while the data and error listeners are active:
    a data chunk, or a lower-level serial-port error. -/
inductive Ev where
  | chunk (data : Str)
  | portError (msg : String)
  deriving DecidableEq

/-- The mutable state of one `collectData` call. -/
structure CState where
  dataBuffer : Str
  lastValidWeight : Option Int
  deriving DecidableEq

/-- Terminal state of the collection race. -/
inductive Outcome where
  /-- the promise resolved with a weight and the buffer as raw data -/
  | succeeded (weight : Int) (rawData : Str)
  /-- the deadline fired with no recorded weight: the timeout rejection -/
  | timedOut
  /-- the error listener fired: the serial-port-error rejection -/
  | failed (msg : String)
  deriving DecidableEq

/-- The body of `collectData`: events are consumed in arrival order until
    the promise settles; exhausting the list embeds the deadline firing
    (every remaining instant up to the read timeout saw no event).  On a
    chunk, the text is appended to the buffer and the protocol processor
    runs; a non-null weight records `lastValidWeight` and resolves at
    once (for the frame protocol after the listeners are removed, which
    the stopped recursion models for both protocols, since a settled
    promise ignores later calls).  On the deadline, a recorded
    `lastValidWeight` resolves the promise and otherwise it rejects. -/
def collectGo (c : Config) : CState → List Ev → Outcome
  | st, [] =>
    match st.lastValidWeight with
    | some w => Outcome.succeeded w st.dataBuffer
    | none => Outcome.timedOut
  | _st, Ev.portError m :: _ => Outcome.failed m
  | st, Ev.chunk data :: rest =>
    let buffer := st.dataBuffer ++ data
    let step : Option Int × Str :=
      if c.protocolType = "frame" then
        processFrameProtocol c.regexFilter buffer
      else
        (processLineProtocol c.regexFilter buffer data, buffer)
    match step.1 with
    | some w => Outcome.succeeded w step.2
    | none => collectGo c ⟨step.2, st.lastValidWeight⟩ rest

/-- The method `collectData()`: the buffer starts empty and no weight has
    been recorded. -/
def collectData (c : Config) (evs : List Ev) : Outcome :=
  collectGo c ⟨[], none⟩ evs

/-- Failure reason carried by an unsuccessful session result. -/
inductive Reason where
  /-- `Failed to open port ...` thrown from the open callback -/
  | openFailed (msg : String)
  /-- `Timeout: No valid weight data received in ...ms` -/
  | timeout
  /-- `Serial port error: ...` from the error listener -/
  | transport (msg : String)
  deriving DecidableEq

/-- The value returned by `readWeight` (the elapsed wall-clock `readTime`
    field is environment time and is not modelled). -/
inductive Result where
  /-- `success: true` with weight, protocol and raw data -/
  | success (weight : Int) (protocol : String) (rawData : Str)
  /-- `success: false` with the error message -/
  | failure (reason : Reason)
  deriving DecidableEq

/-- An observable action on the serial port, in program order. -/
inductive Act where
  /-- the `port.open` call -/
  | portOpen
  /-- a `port.set` call: DTR and RTS levels, and the BREAK level when the
      call supplies one (the open-phase call does, the close-phase call
      does not) -/
  | setSignals (dtr rts : Bool) (brk : Option Bool)
  /-- a `setTimeout` stabilization wait, in milliseconds -/
  | wait (ms : Int)
  /-- a `closePort()` invocation (counts closure attempts) -/
  | closeInvoke
  /-- the `port.close` call -/
  | portClose
  deriving DecidableEq

/-- Environment of one session: whether the open callback reported an
    error, the events delivered while collecting, and whether something
    inside the close try-block threw. -/
structure Env where
  openError : Option String
  events : List Ev
  closeEx : Option String

/-- Trace of the try-block of `closePort` when it runs to completion:
    only when the configured close delay is positive are the signals
    re-asserted and the delay awaited; then the port is closed. -/
def closeBody (c : Config) : List Act :=
  (if 0 < c.closeDelay then
    [Act.setSignals c.dtr c.rts none, Act.wait c.closeDelay]
  else []) ++ [Act.portClose]

/-- The method `closePort()`: a no-op unless the port exists and is open;
    any exception inside the body is caught and only logged, so the call
    always returns normally (an interrupted body contributes no further
    modelled actions). -/
def closePort (c : Config) (isOpen : Bool) (closeEx : Option String) : List Act :=
  Act.closeInvoke ::
    (if isOpen then
      match closeEx with
      | some _ => []
      | none => closeBody c
    else [])

/-- Trace of the successful open sequence: the port is opened, then DTR
    and RTS are immediately set to the configured levels with BREAK
    forced off (a signal-set error is only logged), then the open
    stabilization delay elapses before collection starts. -/
def openActs (c : Config) : List Act :=
  [Act.portOpen, Act.setSignals c.dtr c.rts (some false), Act.wait c.openDelay]

/-- The method `readWeight()`: on an open error the catch block closes
    the (never-opened) port and returns a failure; otherwise the

    collection race decides the result and the port is closed on every
    path before the already-decided result is returned. -/
def readWeight (c : Config) (env : Env) : Result × List Act :=
  match env.openError with
  | some m =>
    (Result.failure (Reason.openFailed m),
      Act.portOpen :: closePort c false env.closeEx)
  | none =>
    let close := closePort c true env.closeEx
    match collectData c env.events with
    | Outcome.succeeded w raw =>
      (Result.success w c.protocolType raw, openActs c ++ close)
    | Outcome.timedOut =>
      (Result.failure Reason.timeout, openActs c ++ close)
    | Outcome.failed m =>
      (Result.failure (Reason.transport m), openActs c ++ close)

/-- Recognizer for closure attempts in a trace. -/
def isCloseInvoke : Act → Bool
  | Act.closeInvoke => true
  | _ => false

/-- Property file of a line-protocol device with the Coquimbito pattern
    from the documentation of the repository. -/
def lineProps : String → Option String := fun k =>
  if k = "protocol.type" then some "line"
  else if k = "regex.filter" then some "[D@F](\\d+)"
  else none

/-- Configuration for the line-protocol scenarios. -/
def lineCfg : Config := loadConfiguration lineProps

/-- Property file of a frame-protocol device whose pattern extracts the
    digits between the two line breaks of a frame. -/
def frameProps : String → Option String := fun k =>
  if k = "regex.filter" then some "\\r\\n(\\d+)\\r\\n"
  else none

/-- Configuration for the delimiter-framing scenario. -/
def frameCfg : Config := loadConfiguration frameProps

/-- Configuration with every property left at its default: frame
    protocol with the default pattern. -/
def defaultCfg : Config := loadConfiguration (fun _ => none)

/-- Property file whose extraction pattern is malformed (an unbalanced
    opening parenthesis). -/
def badPatternProps : String → Option String := fun k =>
  if k = "protocol.type" then some "line"
  else if k = "regex.filter" then some "("
  else none

/-- Configuration carrying the malformed extraction pattern. -/
def badPatternCfg : Config := loadConfiguration badPatternProps

/-- Property file configuring both signal levels high and a negative
    close-stabilization delay. -/
def negCloseProps : String → Option String := fun k =>
  if k = "serial.closeDelay" then some "-1"
  else if k = "serial.dtr" then some "true"
  else if k = "serial.rts" then some "true"
  else none

/-- Configuration with a negative close-stabilization delay. -/
def negCloseCfg : Config := loadConfiguration negCloseProps

/-- An oversized unterminated frame: a start marker followed by 1100
    filler characters and no end marker. -/
def oversizedChunk : Str := STX :: List.replicate 1100 'x'

/-- A complete fresh frame (the characters of "\x02123\x03") arriving
    after the oversized unterminated one. -/
def freshFrame : Str := [STX, '1', '2', '3', ETX]

/-- The accumulated buffer after both chunks of the overflow-recovery
    scenario. -/
def bigBuffer : Str := oversizedChunk ++ freshFrame

/-- A character absent from a buffer is not found by `jsIndexOf`. -/
theorem jsIndexOf_eq_none {l : Str} {t : Char} (h : t ∉ l) : jsIndexOf l t = none := by
  induction l with
  | nil => rfl
  | cons c cs ih =>
    have hct : ¬ c = t := fun hc => h (hc ▸ List.mem_cons_self c cs)
    have hmem : t ∉ cs := fun hm => h (List.mem_cons_of_mem c hm)
    simp [jsIndexOf, hct, ih hmem]

/-- Unfolding of `jsIndexOf` past a non-matching head. -/
theorem jsIndexOf_cons_neg {c t : Char} (cs : Str) (h : ¬ c = t) :
    jsIndexOf (c :: cs) t = (jsIndexOf cs t).map (fun n => n + 1) := by
  simp [jsIndexOf, h]

/-- Unfolding of `jsIndexOf` at a matching head. -/
theorem jsIndexOf_cons_pos (t : Char) (cs : Str) : jsIndexOf (t :: cs) t = some 0 := by
  simp [jsIndexOf]

/-- Searching past a replicated block that cannot match shifts the found
    index by the length of the block. -/
theorem jsIndexOf_replicate_append (n : Nat) (c t : Char) (l : Str) (h : ¬ c = t) :
    jsIndexOf (List.replicate n c ++ l) t = (jsIndexOf l t).map (fun k => k + n) := by
  induction n with
  | zero => simp
  | succ n ih =>
    rw [List.replicate_succ, List.cons_append, jsIndexOf_cons_neg _ h, ih, Option.map_map]
    cases jsIndexOf l t with
    | none => rfl
    | some k => simp [Function.comp]

/-- Length of the oversized chunk. -/
theorem oversizedChunk_length : oversizedChunk.length = 1101 := by
  rw [oversizedChunk, List.length_cons, List.length_replicate]

/-- The only start marker of the oversized chunk is its first character. -/
theorem oversized_lastStx : jsLastIndexOf oversizedChunk STX = some 0 := by
  have hrev : oversizedChunk.reverse = List.replicate 1100 'x' ++ [STX] := by
    rw [oversizedChunk, List.reverse_cons, List.reverse_replicate]
  have hfind : jsIndexOf (List.replicate 1100 'x' ++ [STX]) STX = some 1100 := by
    rw [jsIndexOf_replicate_append 1100 'x' STX [STX] (by decide), jsIndexOf_cons_pos]
    rfl
  rw [jsLastIndexOf, hrev, hfind, oversizedChunk_length]

/-- The oversized chunk contains no end marker. -/
theorem oversized_noEtx : jsIndexOf oversizedChunk ETX = none := by
  apply jsIndexOf_eq_none
  intro hmem
  rw [oversizedChunk] at hmem
  rcases List.mem_cons.mp hmem with h | h
  · exact absurd h (by decide)
  · exact absurd (List.eq_of_mem_replicate h) (by decide)

/-- Processing the oversized chunk finds no frame, and the overflow
    truncation keeps the buffer from its last start marker, which is its
    first character: nothing is discarded. -/
theorem frameStep_oversized :
    processFrameProtocol "(\\d+)" oversizedChunk = (none, oversizedChunk) := by
  have hcond : 1000 < oversizedChunk.length := by rw [oversizedChunk_length]; omega
  simp only [processFrameProtocol, oversized_lastStx, List.drop_zero, oversized_noEtx,
    frameOverflowCheck, if_pos hcond]

/-- Length of the two-chunk buffer. -/
theorem bigBuffer_length : bigBuffer.length = 1106 := by
  rw [bigBuffer, List.length_append, oversizedChunk_length, freshFrame]
  rfl

/-- The last start marker of the two-chunk buffer opens the fresh frame. -/
theorem bigBuffer_lastStx : jsLastIndexOf bigBuffer STX = some 1101 := by
  have hrev : bigBuffer.reverse
      = ETX :: '3' :: '2' :: '1' :: STX :: (List.replicate 1100 'x' ++ [STX]) := by
    rw [bigBuffer, List.reverse_append, oversizedChunk, List.reverse_cons,
      List.reverse_replicate, freshFrame]
    rfl
  have hfind : jsIndexOf bigBuffer.reverse STX = some 4 := by
    rw [hrev, jsIndexOf_cons_neg _ (by decide), jsIndexOf_cons_neg _ (by decide),
      jsIndexOf_cons_neg _ (by decide), jsIndexOf_cons_neg _ (by decide), jsIndexOf_cons_pos]
    rfl
  rw [jsLastIndexOf, hfind, bigBuffer_length]

/-- Dropping everything before the last start marker leaves exactly the
    fresh frame. -/
theorem bigBuffer_drop : bigBuffer.drop 1101 = freshFrame := by
  have hb : bigBuffer = (STX :: List.replicate 1100 'x') ++ freshFrame := rfl
  have hlen : (1101 : Nat) = (STX :: List.replicate 1100 'x').length := by
    rw [List.length_cons, List.length_replicate]
  rw [hb, hlen, List.drop_left]

/-- Processing the buffer that holds the oversized junk plus the fresh
    frame extracts 123 from the fresh frame and consumes the whole
    buffer. -/
theorem frameStep_fresh :
    processFrameProtocol "(\\d+)" bigBuffer = (some 123, []) := by
  have hetx : jsIndexOf (bigBuffer.drop 1101) ETX = some 4 := by
    rw [bigBuffer_drop]; decide
  have hframe : applyRegexFilter "(\\d+)" ((bigBuffer.drop 1101).take (4 + 1)) = some 123 := by
    rw [bigBuffer_drop]; decide
  have hdropAll : bigBuffer.drop (1101 + 4 + 1) = [] := by
    have h6 : (1101 + 4 + 1 : Nat) = bigBuffer.length := by rw [bigBuffer_length]
    rw [h6, List.drop_length]
  simp only [processFrameProtocol, bigBuffer_lastStx, hetx, hframe, hdropAll]

/-- Scanning a split buffer returns the first line that yields a
    reading: lines before it yield nothing, later lines are not
    consulted. -/
theorem scanLines_append (f : String) (pre : List Str) (l : Str) (post : List Str) (w : Int)
    (hpre : ∀ l2 ∈ pre, lineReading f l2 = none) (hl : lineReading f l = some w) :
    scanLines f (pre ++ l :: post) = some w := by
  induction pre with
  | nil => simp only [List.nil_append, scanLines, hl]
  | cons p ps ih =>
    have hp : lineReading f p = none := hpre p (List.mem_cons_self p ps)
    have hps : ∀ l2 ∈ ps, lineReading f l2 = none :=
      fun l2 hm => hpre l2 (List.mem_cons_of_mem p hm)
    simp only [List.cons_append, scanLines, hp]
    exact ih hps

/-- C1 counterexample: feeding the chunks "F000000\r" then "D002260\r"
    to a line-protocol session with pattern [D@F](\d+), the session
    resolves on the FIRST chunk with reading 0 — the class [D@F] matches
    the F line and parseInt("000000") is 0 — so the raw data is the
    first chunk alone and the reading is not 2260. -/
theorem C1_counterexample :
    collectData lineCfg [Ev.chunk "F000000\r".data, Ev.chunk "D002260\r".data]
      = Outcome.succeeded 0 "F000000\r".data := by decide

/-- C1 amended: a chunk without a terminator yields nothing; on a chunk
    with a terminator the whole accumulated buffer is split and the
    segments are evaluated in order until one yields a reading; in the
    spec scenario the session resolves with reading 0 taken from the
    first line (the pattern also matches the F line and zero parses
    validly), not 2260 from the second. -/
theorem C1_line_rescan_amended :
    (∀ (f : String) (buf ch : Str), ch.contains '\r' = false →
      processLineProtocol f buf ch = none)
    ∧ (∀ (f : String) (buf ch : Str) (pre : List Str) (l : Str) (post : List Str) (w : Int),
        ch.contains '\r' = true →
        jsSplit buf '\r' = pre ++ l :: post →
        (∀ l2 ∈ pre, lineReading f l2 = none) →
        lineReading f l = some w →
        processLineProtocol f buf ch = some w)
    ∧ collectData lineCfg [Ev.chunk "F000000\r".data, Ev.chunk "D002260\r".data]
        = Outcome.succeeded 0 "F000000\r".data := by
  refine ⟨?_, ?_, by decide⟩
  · intro f buf ch hch
    simp only [processLineProtocol, hch, Bool.false_eq_true, if_false]
  · intro f buf ch pre l post w hch hsplit hpre hl
    simp only [processLineProtocol, hch, if_true, hsplit]
    exact scanLines_append f pre l post w hpre hl

/-- C1 witness: the two parts of the amended theorem hold at the spec
    concrete buffer of the scenario. -/
theorem C1_witness :
    (("xyz".data : Str).contains '\r' = false
      ∧ processLineProtocol "[D@F](\\d+)" "F0".data "xyz".data = none)
    ∧ (("F000000\r".data : Str).contains '\r' = true
      ∧ jsSplit "F000000\rD002260\r".data '\r'
          = [] ++ "F000000".data :: ["D002260".data, []]
      ∧ lineReading "[D@F](\\d+)" "F000000".data = some 0
      ∧ processLineProtocol "[D@F](\\d+)" "F000000\rD002260\r".data "F000000\r".data
          = some 0) := by
  refine ⟨⟨by decide, C1_line_rescan_amended.1 _ _ _ (by decide)⟩,
    by decide, by decide, by decide,
    C1_line_rescan_amended.2.1 _ _ _ [] "F000000".data ["D002260".data, []] 0
      (by decide) (by decide) (by decide) (by decide)⟩

/-- C9: a reading of zero is a valid success — the extractor returns 0
    for the standby line "F000000" (parseInt of "000000"), the emission
    check compares against null rather than falsiness, so a zero weight
    resolves the session, and the one-chunk session concretely resolves
    Succeeded with weight 0. -/
theorem C9_zero_reading :
    applyRegexFilter "[D@F](\\d+)" "F000000\r".data = some 0
    ∧ (∀ (c : Config) (st : CState) (d : Str) (rest : List Ev),
        ¬ c.protocolType = "frame" →
        processLineProtocol c.regexFilter (st.dataBuffer ++ d) d = some 0 →
        collectGo c st (Ev.chunk d :: rest) = Outcome.succeeded 0 (st.dataBuffer ++ d))
    ∧ collectData lineCfg [Ev.chunk "F000000\r".data]
        = Outcome.succeeded 0 "F000000\r".data := by
  refine ⟨by decide, ?_, by decide⟩
  intro c st d rest hp hw
  simp only [collectGo, if_neg hp, hw]

/-- C9 witness: the emission step of the amended statement applied to the
    concrete standby chunk. -/
theorem C9_witness :
    (¬ lineCfg.protocolType = "frame"
      ∧ processLineProtocol lineCfg.regexFilter (([] : Str) ++ "F000000\r".data)
          "F000000\r".data = some 0)
    ∧ collectGo lineCfg ⟨[], none⟩ [Ev.chunk "F000000\r".data]
        = Outcome.succeeded 0 (([] : Str) ++ "F000000\r".data) := by
  refine ⟨⟨by decide, by decide⟩,
    C9_zero_reading.2.1 lineCfg ⟨[], none⟩ "F000000\r".data [] (by decide) (by decide)⟩

/-- C2: the frame decoder locates the last start marker, searches forward
    for the end marker, and on a successful extraction returns the
    reading with the buffer trimmed through the consumed end marker; a
    frame-protocol session terminates on that first emission whatever
    events follow; and the concrete spec buffer with a stale partial
    frame yields 20450 from the most recent start-to-end span. -/
theorem C2_frame_last_start :
    (∀ (f : String) (buf : Str) (i e : Nat) (w : Int),
      jsLastIndexOf buf STX = some i →
      jsIndexOf (buf.drop i) ETX = some e →
      applyRegexFilter f ((buf.drop i).take (e + 1)) = some w →
      processFrameProtocol f buf = (some w, buf.drop (i + e + 1)))
    ∧ (∀ (c : Config) (st : CState) (d : Str) (rest : List Ev) (w : Int) (buf2 : Str),
        c.protocolType = "frame" →
        processFrameProtocol c.regexFilter (st.dataBuffer ++ d) = (some w, buf2) →
        collectGo c st (Ev.chunk d :: rest) = Outcome.succeeded w buf2)
    ∧ collectData frameCfg [Ev.chunk "\x02garbage\x021\r\n20450\r\n0\x03".data]
        = Outcome.succeeded 20450 [] := by
  refine ⟨?_, ?_, by decide⟩
  · intro f buf i e w h1 h2 h3
    simp only [processFrameProtocol, h1, h2, h3]
  · intro c st d rest w buf2 hp hstep
    simp only [collectGo, if_pos hp, hstep]

/-- C2 witness: the trimming part applied to the concrete two-frame
    buffer, with the stale frame before the second start marker
    discarded. -/
theorem C2_witness :
    (jsLastIndexOf "\x02garbage\x021\r\n20450\r\n0\x03".data STX = some 8
      ∧ jsIndexOf (("\x02garbage\x021\r\n20450\r\n0\x03".data : Str).drop 8) ETX = some 12
      ∧ applyRegexFilter "\\r\\n(\\d+)\\r\\n"
          ((("\x02garbage\x021\r\n20450\r\n0\x03".data : Str).drop 8).take (12 + 1))
          = some 20450)
    ∧ processFrameProtocol "\\r\\n(\\d+)\\r\\n" "\x02garbage\x021\r\n20450\r\n0\x03".data
        = (some 20450, ("\x02garbage\x021\r\n20450\r\n0\x03".data : Str).drop (8 + 12 + 1)) := by
  refine ⟨⟨by decide, by decide, by decide⟩,
    C2_frame_last_start.1 "\\r\\n(\\d+)\\r\\n" _ 8 12 20450
      (by decide) (by decide) (by decide)⟩

/-- Applying the malformed pattern "(" yields nothing on any candidate:
    the RegExp construction fails and the catch block returns null. -/
theorem applyRegexFilter_malformed (data : Str) : applyRegexFilter "(" data = none := by
  simp only [applyRegexFilter, if_neg (show ¬ ("(" : String) = "" by decide),
    show compileRegex ("(" : String).data = none from rfl]

/-- Scanning any split buffer with the malformed pattern yields nothing. -/
theorem scanLines_malformed (ls : List Str) : scanLines "(" ls = none := by
  induction ls with
  | nil => rfl
  | cons l ls ih =>
    have h : lineReading "(" l = none := by
      unfold lineReading
      split
      · rfl
      · exact applyRegexFilter_malformed _
    simp only [scanLines, h, ih]

/-- The line processor with the malformed pattern yields nothing on any
    chunk. -/
theorem processLine_malformed (buf d : Str) : processLineProtocol "(" buf d = none := by
  unfold processLineProtocol
  split
  · exact scanLines_malformed _
  · rfl

/-- A session configured with the malformed pattern consumes its chunk,
    records nothing, and times out. -/
theorem collect_badPattern (data : Str) :
    collectData badPatternCfg [Ev.chunk data] = Outcome.timedOut := by
  have hp : ¬ badPatternCfg.protocolType = "frame" := by decide
  have hf : badPatternCfg.regexFilter = "(" := rfl
  simp only [collectData, collectGo, if_neg hp, hf, processLine_malformed]

/-- C6 counterexample: the configuration loader stores the malformed
    pattern "(" without failing, collection begins and processes a
    chunk, and the session surfaces a timeout failure — not a fatal
    pattern-configuration error reported before collection. -/
theorem C6_counterexample :
    badPatternCfg.regexFilter = "("
    ∧ compileRegex ("(" : String).data = none
    ∧ collectData badPatternCfg [Ev.chunk "D123\r".data] = Outcome.timedOut
    ∧ (readWeight badPatternCfg ⟨none, [Ev.chunk "D123\r".data], none⟩).1
        = Result.failure Reason.timeout := by
  refine ⟨rfl, rfl, collect_badPattern _, ?_⟩
  simp only [readWeight, collect_badPattern]

/-- C6 amended: a malformed pattern is not validated at configuration
    time; every per-chunk application catches the pattern error and
    yields nothing, so a session with a malformed pattern proceeds
    through collection and resolves TimedOut, surfaced as a timeout
    failure rather than a pattern-configuration failure. -/
theorem C6_malformed_pattern_amended :
    badPatternCfg.regexFilter = "("
    ∧ compileRegex ("(" : String).data = none
    ∧ (∀ data : Str, applyRegexFilter "(" data = none)
    ∧ (∀ data : Str, collectData badPatternCfg [Ev.chunk data] = Outcome.timedOut)
    ∧ (∀ (data : Str) (ex : Option String),
        (readWeight badPatternCfg ⟨none, [Ev.chunk data], ex⟩).1
          = Result.failure Reason.timeout) := by
  refine ⟨rfl, rfl, applyRegexFilter_malformed, collect_badPattern, ?_⟩
  intro data ex
  simp only [readWeight, collect_badPattern]

/-- C7 counterexample: on pattern "1()" and input "1" the group
    participates with an empty capture, whose text is not a valid
    integer, yet the extractor returns 1 — the code takes
    `match[1] || match[0]`, so an empty capture falls back to the whole
    match instead of yielding nothing. -/
theorem C7_counterexample :
    (compileRegex ("1()" : String).data).map (fun rs => reExec rs "1".data)
      = some (some ("1".data, some []))
    ∧ jsParseInt [] = none
    ∧ applyRegexFilter "1()" "1".data = some 1 := by
  refine ⟨rfl, by decide, by decide⟩

/-- C7 amended: when the compiled pattern matches, the extractor parses
    `match[1] || match[0]` in base 10 — the capture when it participated
    and is non-empty, the whole match otherwise — and a text that is not
    a valid integer yields nothing rather than an error. -/
theorem C7_extractor_amended :
    ∀ (filter : String) (data whole : Str) (cap : Option Str) (rs : List RE),
      ¬ filter = "" →
      compileRegex filter.data = some rs →
      reExec rs data = some (whole, cap) →
      (applyRegexFilter filter data = jsParseInt (jsCapOr cap whole)
        ∧ (∀ cs : Str, cap = some cs → ¬ cs = [] →
            applyRegexFilter filter data = jsParseInt cs)
        ∧ (cap = none → applyRegexFilter filter data = jsParseInt whole)
        ∧ (jsParseInt (jsCapOr cap whole) = none →
            applyRegexFilter filter data = none)) := by
  intro filter data whole cap rs hne hc hx
  have hmain : applyRegexFilter filter data = jsParseInt (jsCapOr cap whole) := by
    simp only [applyRegexFilter, if_neg hne, hc, hx]
    cases h : jsParseInt (jsCapOr cap whole) <;> simp only [h]
  refine ⟨hmain, ?_, ?_, ?_⟩
  · intro cs hcs hcsne
    rw [hmain, hcs, jsCapOr, if_neg hcsne]
  · intro hcn
    rw [hmain, hcn, jsCapOr]
  · intro hnan
    rw [hmain, hnan]

/-- C7 witness: the amended theorem applied to pattern [XY]+ on input
    "XYZW", whose whole match "XY" is not a valid integer, so the
    extractor yields nothing. -/
theorem C7_witness :
    (¬ ("[XY]+" : String) = ""
      ∧ compileRegex ("[XY]+" : String).data = some [RE.plus (RE.cls ['X', 'Y'])]
      ∧ reExec [RE.plus (RE.cls ['X', 'Y'])] "XYZW".data = some ("XY".data, none)
      ∧ jsParseInt (jsCapOr none "XY".data) = none)
    ∧ applyRegexFilter "[XY]+" "XYZW".data = none := by
  refine ⟨⟨by decide, rfl, by decide, by decide⟩,
    (C7_extractor_amended "[XY]+" "XYZW".data "XY".data none [RE.plus (RE.cls ['X', 'Y'])]
      (by decide) rfl (by decide)).2.2.2 (by decide)⟩

/-- C3 counterexample: loading a configuration whose close delay
    property is "-1" keeps the negative delay (only 0 and NaN fall back
    to the default), and closing an open port under it applies NO signal
    levels at all — the configured dtr/rts pair (true, true) is never
    re-asserted before the close. -/
theorem C3_counterexample :
    negCloseCfg.dtr = true ∧ negCloseCfg.rts = true ∧ negCloseCfg.closeDelay = -1
    ∧ closePort negCloseCfg true none = [Act.closeInvoke, Act.portClose] := by decide

/-- C3 amended: after a successful open the very next actions are the
    signal-set with exactly the configured dtr/rts pair (BREAK off) and
    the open-stabilization wait; and whenever the configured
    close-stabilization delay is positive — which includes every
    configuration whose close-delay property is absent, non-numeric,
    zero or positive — the close sequence re-asserts exactly the
    configured pair, waits the delay, then closes the port.  Only an
    explicitly negative configured close delay skips the re-assertion. -/
theorem C3_signal_levels_amended :
    ∀ (c : Config) (env : Env),
      (env.openError = none →
        (readWeight c env).2.take 3
          = [Act.portOpen, Act.setSignals c.dtr c.rts (some false), Act.wait c.openDelay])
      ∧ (0 < c.closeDelay →
          closePort c true none
            = [Act.closeInvoke, Act.setSignals c.dtr c.rts none, Act.wait c.closeDelay,
               Act.portClose]) := by
  intro c env
  constructor
  · intro h
    simp only [readWeight, h]
    cases hc : collectData c env.events <;> simp [openActs]
  · intro h
    simp [closePort, closeBody, if_pos h]

/-- C3 witness: the amended theorem at the default configuration (close
    delay 50) and an event-free environment. -/
theorem C3_witness :
    ((⟨none, [], none⟩ : Env).openError = none
      ∧ (readWeight defaultCfg ⟨none, [], none⟩).2.take 3
          = [Act.portOpen, Act.setSignals defaultCfg.dtr defaultCfg.rts (some false),
             Act.wait defaultCfg.openDelay])
    ∧ (0 < defaultCfg.closeDelay
      ∧ closePort defaultCfg true none
          = [Act.closeInvoke, Act.setSignals defaultCfg.dtr defaultCfg.rts none,
             Act.wait defaultCfg.closeDelay, Act.portClose]) := by
  refine ⟨⟨rfl, (C3_signal_levels_amended defaultCfg ⟨none, [], none⟩).1 rfl⟩,
    by decide, (C3_signal_levels_amended defaultCfg ⟨none, [], none⟩).2 (by decide)⟩

/-- Every invocation of `closePort` contributes exactly one closure
    attempt to the trace, on every branch of its body. -/
theorem closePort_count (c : Config) (b : Bool) (ex : Option String) :
    (closePort c b ex).countP isCloseInvoke = 1 := by
  by_cases hd : 0 < c.closeDelay <;> cases b <;> cases ex <;>
    simp [closePort, closeBody, hd, isCloseInvoke]

/-- C4: for every configuration and environment, the session trace
    contains exactly one closure attempt regardless of which terminal
    state was reached, and the caller receives a well-formed session
    result — a success carrying weight, protocol and raw data, or a
    failure carrying a reason — on every exit path. -/
theorem C4_close_once_wellformed :
    ∀ (c : Config) (env : Env),
      ((readWeight c env).2.countP isCloseInvoke) = 1
      ∧ ((∃ w p raw, (readWeight c env).1 = Result.success w p raw)
        ∨ (∃ r, (readWeight c env).1 = Result.failure r)) := by
  intro c env
  obtain ⟨oe, evs, ex⟩ := env
  cases oe with
  | some m =>
    refine ⟨?_, Or.inr ⟨Reason.openFailed m, rfl⟩⟩
    simp [readWeight, isCloseInvoke, closePort_count]
  | none =>
    cases hc : collectData c evs with
    | succeeded w raw =>
      refine ⟨?_, Or.inl ⟨w, c.protocolType, raw, ?_⟩⟩
      · simp [readWeight, hc, openActs, isCloseInvoke, closePort_count]
      · simp [readWeight, hc]
    | timedOut =>
      refine ⟨?_, Or.inr ⟨Reason.timeout, ?_⟩⟩
      · simp [readWeight, hc, openActs, isCloseInvoke, closePort_count]
      · simp [readWeight, hc]
    | failed m =>
      refine ⟨?_, Or.inr ⟨Reason.transport m, ?_⟩⟩
      · simp [readWeight, hc, openActs, isCloseInvoke, closePort_count]
      · simp [readWeight, hc]

/-- C5: when the deadline fires, a reading recorded strictly before it
    resolves the session Succeeded with that last-recorded reading and
    the buffer as raw data; with no recorded reading the session times
    out — and the surfaced result is the timeout failure, never a
    success. -/
theorem C5_deadline_fallback :
    ∀ (c : Config) (buf : Str) (w : Int) (ex : Option String),
      collectGo c ⟨buf, some w⟩ [] = Outcome.succeeded w buf
      ∧ collectGo c ⟨buf, none⟩ [] = Outcome.timedOut
      ∧ (readWeight c ⟨none, [], ex⟩).1 = Result.failure Reason.timeout := by
  intro c buf w ex
  exact ⟨rfl, rfl, rfl⟩

/-- C10: closing is always safe and result-preserving — with the port
    not open the close is a no-op beyond the attempt marker whatever the
    close environment holds, the session result never depends on an
    error thrown while closing, and when open itself failed the
    already-decided failure is returned unchanged. -/
theorem C10_close_safe :
    ∀ (c : Config) (oe : Option String) (evs : List Ev) (e1 e2 ex : Option String),
      closePort c false ex = [Act.closeInvoke]
      ∧ (readWeight c ⟨oe, evs, e1⟩).1 = (readWeight c ⟨oe, evs, e2⟩).1
      ∧ (∀ m : String, (readWeight c ⟨some m, evs, e1⟩).1
          = Result.failure (Reason.openFailed m)) := by
  intro c oe evs e1 e2 ex
  refine ⟨rfl, ?_, fun m => rfl⟩
  cases oe with
  | some m => rfl
  | none => cases hc : collectData c evs <;> simp [readWeight, hc]

/-- A frame-protocol collection step whose chunk produces no weight
    carries the updated buffer into the rest of the session. -/
theorem collectGo_chunk_frame_none (c : Config) (buf0 : Str) (lastW : Option Int)
    (d : Str) (rest : List Ev) (buf2 : Str)
    (hp : c.protocolType = "frame")
    (hstep : processFrameProtocol c.regexFilter (buf0 ++ d) = (none, buf2)) :
    collectGo c ⟨buf0, lastW⟩ (Ev.chunk d :: rest) = collectGo c ⟨buf2, lastW⟩ rest := by
  simp only [collectGo, if_pos hp, hstep]

/-- A frame-protocol collection step whose chunk produces a weight
    resolves the session at once. -/
theorem collectGo_chunk_frame_some (c : Config) (buf0 : Str) (lastW : Option Int)
    (d : Str) (rest : List Ev) (w : Int) (buf2 : Str)
    (hp : c.protocolType = "frame")
    (hstep : processFrameProtocol c.regexFilter (buf0 ++ d) = (some w, buf2)) :
    collectGo c ⟨buf0, lastW⟩ (Ev.chunk d :: rest) = Outcome.succeeded w buf2 := by
  simp only [collectGo, if_pos hp, hstep]

/-- Whenever the frame processor returns no weight, it returns through
    the shared buffer-size check. -/
theorem processFrame_none (f : String) (buf : Str)
    (h : (processFrameProtocol f buf).1 = none) :
    processFrameProtocol f buf = frameOverflowCheck buf := by
  rcases h1 : jsLastIndexOf buf STX with _ | i
  · simp only [processFrameProtocol, h1]
  · rcases h2 : jsIndexOf (buf.drop i) ETX with _ | e
    · simp only [processFrameProtocol, h1, h2]
    · rcases h3 : applyRegexFilter f ((buf.drop i).take (e + 1)) with _ | w
      · simp only [processFrameProtocol, h1, h2, h3]
      · exfalso
        have hw : (processFrameProtocol f buf).1 = some w := by
          simp only [processFrameProtocol, h1, h2, h3]
        rw [h] at hw
        exact Option.noConfusion hw

/-- C8: when a chunk produces no reading and the buffer exceeds the
    1000-character ceiling, the buffer is truncated to begin at its most
    recent start marker, or discarded entirely when it has none; below
    the ceiling it is kept intact; and feeding an unterminated frame
    exceeding the ceiling followed by a fresh start marker and a valid
    complete frame still yields the correct reading from the fresh
    frame. -/
theorem C8_buffer_ceiling :
    (∀ (f : String) (buf : Str),
      (processFrameProtocol f buf).1 = none → 1000 < buf.length →
      (processFrameProtocol f buf).2
        = (match jsLastIndexOf buf STX with
           | some k => buf.drop k
           | none => ([] : Str)))
    ∧ (∀ (f : String) (buf : Str),
        (processFrameProtocol f buf).1 = none → buf.length ≤ 1000 →
        (processFrameProtocol f buf).2 = buf)
    ∧ collectData defaultCfg [Ev.chunk oversizedChunk, Ev.chunk freshFrame]
        = Outcome.succeeded 123 [] := by
  refine ⟨?_, ?_, ?_⟩
  · intro f buf h hlen
    rw [processFrame_none f buf h, frameOverflowCheck, if_pos hlen]
    cases jsLastIndexOf buf STX <;> rfl
  · intro f buf h hlen
    rw [processFrame_none f buf h, frameOverflowCheck, if_neg (not_lt.mpr hlen)]
  · have h1 : processFrameProtocol defaultCfg.regexFilter (([] : Str) ++ oversizedChunk)
        = (none, oversizedChunk) := by
      rw [List.nil_append]; exact frameStep_oversized
    have h2 : processFrameProtocol defaultCfg.regexFilter (oversizedChunk ++ freshFrame)
        = (some 123, []) := frameStep_fresh
    rw [collectData,
      collectGo_chunk_frame_none defaultCfg [] none oversizedChunk [Ev.chunk freshFrame]
        oversizedChunk rfl h1,
      collectGo_chunk_frame_some defaultCfg oversizedChunk none freshFrame [] 123 [] rfl h2]

/-- C8 witness: the overflow rule applied to the concrete oversized
    chunk, whose only start marker is its first character, so the
    truncation keeps the whole buffer. -/
theorem C8_witness :
    ((processFrameProtocol "(\\d+)" oversizedChunk).1 = none
      ∧ 1000 < oversizedChunk.length)
    ∧ (processFrameProtocol "(\\d+)" oversizedChunk).2
        = (match jsLastIndexOf oversizedChunk STX with
           | some k => oversizedChunk.drop k
           | none => ([] : Str)) := by
  have h1 : (processFrameProtocol "(\\d+)" oversizedChunk).1 = none := by
    rw [frameStep_oversized]
  have h2 : 1000 < oversizedChunk.length := by rw [oversizedChunk_length]; omega
  exact ⟨⟨h1, h2⟩, C8_buffer_ceiling.1 "(\\d+)" oversizedChunk h1 h2⟩

end SerialWeightReader

